import Mathlib

/-!
# Verification of the pycbc workflow-construction core (PyGRB utilities)

Shallow embedding of the two source files

* `pycbc/workflow/grb_utils.py` — GRB workflow helper functions
  (`set_grb_start_end`, `get_coh_PTF_files`, `make_exttrig_file`,
  `get_ipn_sky_files`, `make_gating_node`);
* `examples/ahope/data_checker/daily_test.py` — the multi-site
  segment-comparison script (`segment_report` and the module-level
  SYR/CIT/LHO/LLO/UWM comparisons).

Conventions of the embedding:

* A `Segment` is a half-open interval `[start, stop)` of integer GPS
  seconds, represented as a pair of `Int`s; `abs(seg)` of the Python
  `ligo.segments.segment` is its duration `stop - start`.
* A `SegmentList` is a plain list of segments; the library invariant
  (sorted, disjoint, coalesced) is the decidable predicate
  `SegmentList.wf`.
* A `SegmentDict` is an association list from instrument name to
  `SegmentList`; the list order models the (insertion-ordered) Python
  dict iteration order.
* Configuration objects (`WorkflowConfigParser`) are modelled as
  functions from section and option to `Option String`; `cp.set`
  becomes a pointwise functional update.
* Python floats that are only stored, never computed with, are carried
  symbolically by their source text.
-/

namespace Pycbc

/-- A half-open interval `[start, stop)` of integer GPS seconds,
embedding `ligo.segments.segment`. -/
abbrev Segment := Int × Int

/-- `abs(seg)` of `ligo.segments.segment`: the duration `stop - start`. -/
def Segment.dur (s : Segment) : Int := s.2 - s.1

/-- A `ligo.segments.segmentlist`: a list of segments; the library keeps
them sorted, disjoint and coalesced (`SegmentList.wf`). -/
abbrev SegmentList := List Segment

/-- The `segmentlist` invariant from the spec's Segment Algebra: every
segment is well-formed (`start < stop`) and consecutive segments are
strictly separated (sorted, non-adjacent, coalesced). -/
def SegmentList.wf : SegmentList → Bool
  | [] => true
  | [(x, y)] => x < y
  | (x, y) :: (z, w) :: rest => x < y && y < z && SegmentList.wf ((z, w) :: rest)

/-- Modelled from the spec: `intersect(a, b) -> SegmentList` of the
Segment Algebra (the `&` of `ligo.segments.segmentlist`, an external
dependency not under `src/`): "returns overlap; result sorted,
coalesced".  Standard sweep over the two sorted lists; when both heads
end together both are dropped, which agrees with the sweep on sorted
inputs and makes the definition symmetric. -/
def SegmentList.inter : SegmentList → SegmentList → SegmentList
  | [], _ => []
  | _ :: _, [] => []
  | (a1, a2) :: as, (b1, b2) :: bs =>
      let lo := max a1 b1
      let hi := min a2 b2
      let rest :=
        if a2 < b2 then SegmentList.inter as ((b1, b2) :: bs)
        else if b2 < a2 then SegmentList.inter ((a1, a2) :: as) bs
        else SegmentList.inter as bs
      if lo < hi then (lo, hi) :: rest else rest
  termination_by a b => a.length + b.length

/-- Modelled from the spec: `difference(a, b) -> SegmentList` of the
Segment Algebra (the `-` of `ligo.segments.segmentlist`, an external
dependency not under `src/`; used by the module-level site comparisons
of `daily_test.py`): "a minus covered time of b".  Standard sweep over
the two sorted lists. -/
def SegmentList.diff : SegmentList → SegmentList → SegmentList
  | [], _ => []
  | a :: as, [] => a :: as
  | (a1, a2) :: as, (b1, b2) :: bs =>
      if b2 ≤ a1 then SegmentList.diff ((a1, a2) :: as) bs
      else if a2 ≤ b1 then (a1, a2) :: SegmentList.diff as ((b1, b2) :: bs)
      else
        let left := if a1 < b1 then [(a1, b1)] else []
        if b2 < a2 then left ++ SegmentList.diff ((b2, a2) :: as) bs
        else left ++ SegmentList.diff as ((b1, b2) :: bs)
  termination_by a b => a.length + b.length

/-- A science-segment dictionary (`scienceSegs` in `daily_test.py`):
instrument name to `SegmentList`, as an association list in dict
iteration order. -/
abbrev SegmentDict := List (String × SegmentList)

/-- Association-list lookup, embedding `ifo in sSegs.keys()` /
`sSegs[ifo]`. -/
def SegmentDict.find : SegmentDict → String → Option SegmentList
  | [], _ => none
  | (k, v) :: rest, ifo => if k = ifo then some v else SegmentDict.find rest ifo

/-- The six counters of `segment_report` (`daily_test.py` lines 60-65):
`fullLen, fullNum, shortLen, shortNum, longLen, longNum`. -/
structure CovAcc where
  fullLen : Int
  fullNum : Nat
  shortLen : Int
  shortNum : Nat
  longLen : Int
  longNum : Nat
deriving DecidableEq, Repr

/-- The all-zero initial counters of `segment_report`. -/
def CovAcc.zero : CovAcc := ⟨0, 0, 0, 0, 0, 0⟩

/-- The body of the inner `for seg in sSegs[ifo]` loop of
`segment_report` (`daily_test.py` lines 67-75). -/
def covStep (a : CovAcc) (seg : Segment) : CovAcc :=
  { fullLen := a.fullLen + seg.dur
    fullNum := a.fullNum + 1
    shortLen := if 500 < seg.dur then a.shortLen + seg.dur else a.shortLen
    shortNum := if 500 < seg.dur then a.shortNum + 1 else a.shortNum
    longLen := if 2000 < seg.dur then a.longLen + seg.dur else a.longLen
    longNum := if 2000 < seg.dur then a.longNum + 1 else a.longNum }

/-- The outer `for ifo in sSegs.keys()` loop of `segment_report`:
the counters are NOT reset between instruments (they are initialised
once, before the loop, at `daily_test.py` lines 60-65), and one line of
counter values is printed per instrument after its inner loop. -/
def segmentReportLoop : SegmentDict → CovAcc → List (String × CovAcc)
  | [], _ => []
  | (ifo, segs) :: rest, acc =>
      let acc1 := segs.foldl covStep acc
      (ifo, acc1) :: segmentReportLoop rest acc1

/-- `segment_report(sSegs)` of `daily_test.py` (lines 59-76): returns,
per instrument, the counter values printed on that instrument's line. -/
def segment_report (sSegs : SegmentDict) : List (String × CovAcc) :=
  segmentReportLoop sSegs CovAcc.zero

/-- The coverage line an instrument's segments would produce on their
own (what the claim C1 and the printed message assert): the counters of
`segment_report` run on just that instrument. -/
def soloReport (segs : SegmentList) : CovAcc := segs.foldl covStep CovAcc.zero

/-! ## Cross-site comparison (`daily_test.py` lines 86-120)

The SYR/CIT comparison: for each instrument of the first site's dict,
print the difference against the second site's list for that
instrument, or a "No science segments" notice when the instrument is
absent from the second dict; then the same with the sites swapped; each
site's dict also gets a `segment_report`.  `none` below stands for the
"No science segments for ifo ... " notice. -/

/-- One direction of the comparison (`daily_test.py` lines 104-110):
for each ifo of `x`, `x[ifo] - y[ifo]` when `ifo` is in `y`, else the
missing-instrument notice. -/
def siteDiff (x y : SegmentDict) : List (String × Option SegmentList) :=
  x.map fun p =>
    (p.1, match SegmentDict.find y p.1 with
          | some other => some (SegmentList.diff p.2 other)
          | none => none)

/-- Everything the module-level pairwise comparison prints for a pair
of sites: each site's coverage report and both per-instrument
difference listings. -/
structure ComparisonOutput where
  firstReport : List (String × CovAcc)
  secondReport : List (String × CovAcc)
  firstMinusSecond : List (String × Option SegmentList)
  secondMinusFirst : List (String × Option SegmentList)
deriving DecidableEq, Repr

/-- The pairwise site comparison of `daily_test.py` (lines 86-120) as a
function of the two site-specific science-segment dicts. -/
def crossSiteComparison (s1 s2 : SegmentDict) : ComparisonOutput :=
  ⟨segment_report s1, segment_report s2, siteDiff s1 s2, siteDiff s2 s1⟩

/-! ## Configuration objects (`WorkflowConfigParser`) -/

/-- A parsed configuration: section and option to value.
`cp.get(sec, opt)` is application; a missing entry is `none`
(`configparser` raises `NoOptionError`/`NoSectionError` there). -/
abbrev Config := String → String → Option String

/-- `cp.set(sec, opt, val)`: the `configparser` mutation, modelled as a
pointwise functional update. -/
def Config.set (cp : Config) (sec opt val : String) : Config :=
  fun s o => if s = sec ∧ o = opt then some val else cp s o

/-- `set_grb_start_end(cp, start, end)` of `grb_utils.py` (lines
41-65): sets `workflow.start-time` to `str(start)` and
`workflow.end-time` to `str(end)` and returns the (mutated) parser. -/
def set_grb_start_end (cp : Config) (start «end» : Int) : Config :=
  (cp.set "workflow" "start-time" (toString start)).set
    "workflow" "end-time" (toString «end»)

/-! ## The File Catalog (`pycbc.workflow.core.File`, not under `src/`) -/

/-- A (path, site) pair: one physical location of a File. -/
structure PFN where
  path : String
  site : String
deriving DecidableEq, Repr

/-- Modelled from the spec: the File Catalog's `File` entity
(`pycbc.workflow.core.File`, not under `src/`): a logical data product
with its instrument string, logical name, validity segment, the URL it
was constructed from, and its ordered PFN list. -/
structure WFile where
  ifos : String
  name : String
  seg : Segment
  fileUrl : String
  pfns : List PFN
deriving DecidableEq, Repr

/-- Modelled from the spec: `File(ifos, name, seg, file_url=url)`
construction (`pycbc.workflow.core.File`, not under `src/`): a fresh
File wrapping the URL, with no PFNs registered yet. -/
def mkFile (ifos name : String) (seg : Segment) (url : String) : WFile :=
  ⟨ifos, name, seg, url, []⟩

/-- Modelled from the spec: `add_pfn(file, path, site)` of the File
Catalog (`pycbc.workflow.core.File.add_pfn`, not under `src/`):
"appends an alternate physical location; no-op if (path, site) already
present (idempotent)". -/
def add_pfn (f : WFile) (path site : String) : WFile :=
  if PFN.mk path site ∈ f.pfns then f
  else { f with pfns := f.pfns ++ [PFN.mk path site] }

/-- Modelled from the spec: `file.cache_entry.path` for a
`file://localhost...` URL (`pycbc.workflow.core`, not under `src/`):
the filesystem path addressed by the URL. -/
def urlToPath (url : String) : String :=
  if url.startsWith "file://localhost" then url.drop 16 else url

/-! ## `get_coh_PTF_files` (`grb_utils.py` lines 68-135) -/

/-- The observable behaviour of one `get_coh_PTF_files` call: the
`shutil.copy` source paths performed (in order), the `File` objects
constructed (in order), and the outcome (the returned `FileList`, or
the exception message). -/
structure CohPTFResult where
  copies : List String
  created : List WFile
  outcome : Except String (List WFile)
deriving Repr

/-- The `ValueError` message of `get_coh_PTF_files` when `LAL_SRC` is
unset (`grb_utils.py` lines 95-96). -/
def lalSrcMsg : String :=
  "The environment variable LAL_SRC must be set to a location containing the file lalsuite.git"

/-- The numeric value of a decimal digit character. -/
def digitVal (c : Char) : Option Nat :=
  if c.isDigit then some (c.toNat - 48) else none

/-- The natural number denoted by a non-empty string of decimal
digits. -/
def natOfDigits (cs : List Char) : Option Nat :=
  match cs with
  | [] => none
  | _ =>
    cs.foldl
      (fun acc c =>
        match acc, digitVal c with
        | some n, some d => some (n * 10 + d)
        | _, _ => none)
      (some 0)

/-- Python's `int(s)` on a configuration value: a decimal integer
literal with an optional leading minus sign; anything else raises
`ValueError`. -/
def pyInt? (s : String) : Option Int :=
  match s.data with
  | '-' :: rest => (natOfDigits rest).map fun n => -(n : Int)
  | cs => (natOfDigits cs).map fun n => (n : Int)

/-- `get_coh_PTF_files(cp, ifos, run_dir, bank_veto, summary_files)` of
`grb_utils.py` (lines 68-135).  `lalSrc` is `os.getenv("LAL_SRC")`.
If it is unset the function raises before touching the filesystem or
constructing any `File`; otherwise it builds the science segment from
`workflow.start-time`/`end-time` (raising if either is missing or not
an integer literal) and then copies/registers the bank-veto file and
the two summary style files according to the two flags. -/
def get_coh_PTF_files (lalSrc : Option String) (cp : Config)
    (ifos runDir : String) (bankVeto summaryFiles : Bool) : CohPTFResult :=
  match lalSrc with
  | none => ⟨[], [], .error lalSrcMsg⟩
  | some lalDir =>
    match cp "workflow" "start-time", cp "workflow" "end-time" with
    | some s, some e =>
      match pyInt? s, pyInt? e with
      | some si, some ei =>
        let sciSeg : Segment := (si, ei)
        let bvPart : List String × List WFile :=
          if bankVeto then
            let src := lalDir ++ "/lalapps/src/ring/coh_PTF_config_files/bank_veto_bank.xml"
            let url := "file://localhost" ++ runDir ++ "/bank_veto_bank.xml"
            let f := add_pfn (mkFile ifos "bank_veto_bank" sciSeg url) (urlToPath url) "local"
            ([src], [f])
          else ([], [])
        let sumPart : List String × List WFile :=
          if summaryFiles then
            let srcJs := lalDir ++ "/lalapps/src/ring/coh_PTF_config_files/coh_PTF_html_summary.js"
            let urlJs := "file://localhost" ++ runDir ++ "/coh_PTF_html_summary.js"
            let fJs := add_pfn (mkFile ifos "coh_PTF_html_summary_js" sciSeg urlJs)
              (urlToPath urlJs) "local"
            let srcCss := lalDir ++ "/lalapps/src/ring/coh_PTF_config_files/coh_PTF_html_summary.css"
            let urlCss := "file://localhost" ++ runDir ++ "/coh_PTF_html_summary.css"
            let fCss := add_pfn (mkFile ifos "coh_PTF_html_summary_css" sciSeg urlCss)
              (urlToPath urlCss) "local"
            ([srcJs, srcCss], [fJs, fCss])
          else ([], [])
        ⟨bvPart.1 ++ sumPart.1, bvPart.2 ++ sumPart.2, .ok (bvPart.2 ++ sumPart.2)⟩
      | _, _ => ⟨[], [], .error "invalid literal for int()"⟩
    | _, _ => ⟨[], [], .error "NoOptionError: workflow start-time/end-time"⟩

/-! ## `make_exttrig_file` (`grb_utils.py` lines 138-202)

The external-trigger row assembly.  The row of the
`lsctables.ExtTriggersTable` is a dynamic attribute set; we model it as
an association list of set attributes.  The table's `validcolumns`
mapping (column name to declared kind) comes from the external
`ligo.lw` library, so it is kept abstract: the filling loop is proved
for every column list.  Python floats here are only parsed from and
stored as configuration text, never computed with, so a real value is
carried symbolically by its source text. -/

/-- A value stored in an external-trigger row attribute. -/
inductive RowVal where
  /-- a `real_4`/`real_8` value, carried by its decimal source text -/
  | real (s : String)
  /-- an `int_4s`/`int_8s` (or `process_id`/`event_id`) value -/
  | int (n : Int)
  /-- an `lstring` value -/
  | str (s : String)
deriving DecidableEq, Repr

/-- The dynamic attribute set of an `ExtTriggersTable` row: the
attributes set so far, in assignment order. -/
abbrev Row := List (String × RowVal)

/-- `hasattr(row, entry)`. -/
def hasAttr (row : Row) (entry : String) : Bool :=
  row.any fun p => p.1 = entry

/-- Reading an attribute of the row (`getattr`). -/
def getAttr (row : Row) (entry : String) : Option RowVal :=
  (row.find? fun p => p.1 = entry).map (·.2)

/-- `setattr(row, entry, v)`; in `make_exttrig_file` it is only reached
for attributes not yet present, so recording the assignment at the end
is faithful. -/
def setAttr (row : Row) (entry : String) (v : RowVal) : Row :=
  row ++ [(entry, v)]

/-- The default-value dispatch of `make_exttrig_file`'s filling loop
(`grb_utils.py` lines 180-191), exactly the `if`/`elif` chain: `0.` for
`real_4`/`real_8`, `0` for `int_4s`/`int_8s`, `''` for `lstring`, then
`0` for the `process_id` and `event_id` columns, else no default
(`ValueError`). -/
def defaultFor (entry kind : String) : Option RowVal :=
  if kind = "real_4" ∨ kind = "real_8" then some (.real "0.")
  else if kind = "int_4s" ∨ kind = "int_8s" then some (.int 0)
  else if kind = "lstring" then some (.str "")
  else if entry = "process_id" then some (.int 0)
  else if entry = "event_id" then some (.int 0)
  else none

/-- The `for entry in cols.keys()` loop of `make_exttrig_file`
(`grb_utils.py` lines 177-191): skip attributes already set, give every
other column its kind default, and raise
`ValueError("Column %s not recognized" % entry)` on a column with no
recognised default. -/
def fillRow : List (String × String) → Row → Except String Row
  | [], row => .ok row
  | (entry, kind) :: rest, row =>
      if hasAttr row entry then fillRow rest row
      else
        match defaultFor entry kind with
        | some v => fillRow rest (setAttr row entry v)
        | none => .error ("Column " ++ entry ++ " not recognized")

/-- The four GRB attributes `make_exttrig_file` sets from the
configuration before the filling loop (`grb_utils.py` lines 171-174):
`event_ra = float(cp.get("workflow","ra"))`,
`event_dec = float(cp.get("workflow","dec"))`,
`start_time = int(cp.get("workflow","trigger-time"))`,
`event_number_grb = str(cp.get("workflow","trigger-name"))`. -/
def initExtTrigRow (ra dec : String) (triggerTime : Int)
    (triggerName : String) : Row :=
  [("event_ra", .real ra), ("event_dec", .real dec),
   ("start_time", .int triggerTime), ("event_number_grb", .str triggerName)]

/-- The row-assembly core of `make_exttrig_file` (`grb_utils.py` lines
168-191): the freshly appended row gets the four GRB attributes and is
then completed over the table's `validcolumns` list `cols`. -/
def make_exttrig_row (cols : List (String × String)) (ra dec : String)
    (triggerTime : Int) (triggerName : String) : Except String Row :=
  fillRow cols (initExtTrigRow ra dec triggerTime triggerName)

/-! ## `get_ipn_sky_files` (`grb_utils.py` lines 205-234) -/

/-- The `file_attrs` dictionary `get_ipn_sky_files` builds
(`grb_utils.py` lines 226-231). -/
structure FileAttrs where
  ifos : String
  segs : Segment
  exe_name : String
  tags : List String
deriving DecidableEq, Repr

/-- Python's `tags or []` on an optional list: `None` and the empty
list are both falsy and give `[]`. -/
def pyOrEmpty (tags : Option (List String)) : List String :=
  match tags with
  | none => []
  | some t => if t.isEmpty then [] else t

/-- `get_ipn_sky_files(workflow, file_url, tags=None)` of
`grb_utils.py` (lines 205-234): normalises `tags` with `tags or []`,
builds the `file_attrs` dict from the workflow's ifos and analysis
time, and resolves the URL through the external
`pycbc.workflow.core.resolve_url_to_file`, kept abstract as the
parameter `resolve`. -/
def get_ipn_sky_files {File : Type}
    (resolve : String → FileAttrs → File)
    (wfIfos : String) (wfAnalysisTime : Segment)
    (fileUrl : String) (tags : Option (List String)) : File :=
  let tags := pyOrEmpty tags
  resolve fileUrl ⟨wfIfos, wfAnalysisTime, "IPN_SKY_POINTS", tags⟩

/-! ## `make_gating_node` (`grb_utils.py` lines 236-280) -/

/-- A datafind frame file, as `make_gating_node` consumes it: only its
`ifo` attribute is inspected (the filter at `grb_utils.py` lines
271-272); `name` keeps entries distinguishable. -/
structure DFFile where
  ifo : String
  name : String
deriving DecidableEq, Repr

/-- `if tags is None: tags = []` (`grb_utils.py` lines 263-264). -/
def tagsOrEmpty (tags : Option (List String)) : List String :=
  match tags with
  | none => []
  | some t => t

/-- The part of the `Workflow` object `make_gating_node` reads: its
configuration and its instrument list (iteration order of
`workflow.ifos`). -/
structure GatingWorkflow where
  cp : Config
  ifos : List String

/-- `make_gating_node(workflow, datafind_files, outdir, tags)` of
`grb_utils.py` (lines 236-280).  The external job machinery is kept
abstract: `exeClass` is the class returned by
`select_generic_executable(workflow, "condition_strain")`, applied to
`(cp, "condition_strain", ifo, out_dir, tags)`; `createNode` is its
`create_node(input_files, tags)`.  For each ifo of `workflow.ifos`, in
order: filter `datafind_files` to that ifo (order preserved), build the
job, create its node, and append the node and its output file. -/
def make_gating_node {Job Node F : Type} (wf : GatingWorkflow)
    (datafindFiles : List DFFile) (outdir : Option String)
    (tags : Option (List String))
    (exeClass : Config → String → String → Option String → List String → Job)
    (createNode : Job → List DFFile → List String → Node × F) :
    List Node × List F :=
  let cp := wf.cp
  let tags := tagsOrEmpty tags
  wf.ifos.foldl
    (fun acc ifo =>
      let inputFiles := datafindFiles.filter fun df => df.ifo = ifo
      let job := exeClass cp "condition_strain" ifo outdir tags
      let nodeOut := createNode job inputFiles tags
      (acc.1 ++ [nodeOut.1], acc.2 ++ [nodeOut.2]))
    ([], [])

/-! ## Concrete sample data used by witnesses and counterexamples -/

/-- A small concrete configuration: a `workflow` section holding
`start-time = "0"` and `end-time = "100"`. -/
def demoConfig : Config := fun s o =>
  if s = "workflow" ∧ o = "start-time" then some "0"
  else if s = "workflow" ∧ o = "end-time" then some "100"
  else none

/-- A small concrete File with an empty PFN list. -/
def demoFile : WFile := mkFile "H1" "bank_veto_bank" (0, 100) "file://localhost/x"

/-- A small concrete `validcolumns` list for the external-trigger
table: a column the configuration already sets, two columns with kind
defaults, and `process_id` with a kind outside the recognised list. -/
def demoCols : List (String × String) :=
  [("event_ra", "real_4"), ("duration", "real_4"),
   ("event_type", "lstring"), ("process_id", "ilwd:char")]

/-- The row `make_exttrig_row` produces on `demoCols`: the four GRB
attributes followed by the kind defaults of the remaining columns. -/
def demoExtRow : Row :=
  initExtTrigRow "266.4" "-29.0" 100 "GRB1" ++
    [("duration", .real "0."), ("event_type", .str ""), ("process_id", .int 0)]

/-! ## Theorems -/

/-- C1: `segment_report` does NOT report each instrument's coverage
over its own segments alone: the counters are initialised once before
the instrument loop (`daily_test.py` lines 60-65) and never reset, so
the line for the second instrument reports the running totals of both.
For the dict `{H1: [[0,1000)], L1: [[0,600)]}` the `L1` line says 1600
seconds in 2 segments, while `L1` alone has 600 seconds in 1 segment
(`soloReport`). -/
theorem segment_report_accumulates_across_instruments :
    segment_report [("H1", [((0 : Int), 1000)]), ("L1", [(0, 600)])]
      = [("H1", ⟨1000, 1, 1000, 1, 0, 0⟩), ("L1", ⟨1600, 2, 1600, 2, 0, 0⟩)]
  ∧ soloReport [((0 : Int), 600)] = ⟨600, 1, 600, 1, 0, 0⟩ := by
  exact ⟨rfl, rfl⟩

/-- C2 counterexample: `set_grb_start_end` is not read-only on the
configuration: starting from `demoConfig`, whose
`workflow.start-time` is `"0"`, the call `set_grb_start_end(cp, 5, 10)`
changes that entry. -/
theorem set_grb_start_end_mutates_config :
    (set_grb_start_end demoConfig 5 10) "workflow" "start-time"
      ≠ demoConfig "workflow" "start-time" := by
  decide

/-- C2 amended: `set_grb_start_end(cp, start, end)` writes exactly the
two entries `workflow.start-time` and `workflow.end-time` (to the
decimal strings of `start` and `end`); every other section/key entry of
`cp` holds the same value after the call as before it. -/
theorem set_grb_start_end_writes_only_boundaries (cp : Config) (s e : Int) :
    (set_grb_start_end cp s e) "workflow" "start-time" = some (toString s)
  ∧ (set_grb_start_end cp s e) "workflow" "end-time" = some (toString e)
  ∧ ∀ sec opt, (sec = "workflow" → opt ≠ "start-time" ∧ opt ≠ "end-time") →
      (set_grb_start_end cp s e) sec opt = cp sec opt := by
  refine ⟨?_, ?_, ?_⟩
  · simp [set_grb_start_end, Config.set]
  · simp [set_grb_start_end, Config.set]
  · intro sec opt h
    by_cases hsec : sec = "workflow"
    · obtain ⟨h1, h2⟩ := h hsec
      simp [set_grb_start_end, Config.set, hsec, h1, h2]
    · simp [set_grb_start_end, Config.set, hsec]

/-- C2 amended, witness at `demoConfig`: the call writes
`start-time` and leaves the unrelated `workflow.ra` entry unchanged. -/
theorem set_grb_start_end_writes_only_boundaries_witness :
    (set_grb_start_end demoConfig 5 10) "workflow" "start-time"
      = some (toString (5 : Int))
  ∧ (set_grb_start_end demoConfig 5 10) "workflow" "ra"
      = demoConfig "workflow" "ra" :=
  ⟨(set_grb_start_end_writes_only_boundaries demoConfig 5 10).1,
   (set_grb_start_end_writes_only_boundaries demoConfig 5 10).2.2 "workflow" "ra"
     (fun _ => ⟨by decide, by decide⟩)⟩

/-- C3: the multi-site comparison scenario: for instrument H with
site-A list `[[0,1000)]` and site-B list `[[500,1000)]`, `A - B` is
`[[0,500)]`, `B - A` is empty, and the coverage reports give A 1000
seconds in 1 segment and B 500 seconds in 1 segment. -/
theorem multisite_comparison_scenario :
    SegmentList.diff [((0 : Int), 1000)] [(500, 1000)] = [(0, 500)]
  ∧ SegmentList.diff [((500 : Int), 1000)] [(0, 1000)] = []
  ∧ (segment_report [("H", [((0 : Int), 1000)])]).map
      (fun p => (p.1, p.2.fullLen, p.2.fullNum)) = [("H", 1000, 1)]
  ∧ (segment_report [("H", [((500 : Int), 1000)])]).map
      (fun p => (p.1, p.2.fullLen, p.2.fullNum)) = [("H", 500, 1)] := by
  refine ⟨?_, ?_, rfl, rfl⟩
  · simp [SegmentList.diff]
  · simp [SegmentList.diff]

/-- C4: the cross-site comparison is a pure function of the two
site-specific dicts, each obtained by querying an independent deep copy
of the same baseline, so its output for the pair is the same (with the
two sites' roles exchanged) whichever site is queried and compared
first. -/
theorem cross_site_comparison_order_independent (base : SegmentDict)
    (q1 q2 : SegmentDict → SegmentDict) :
    (crossSiteComparison (q1 base) (q2 base)).firstReport
        = (crossSiteComparison (q2 base) (q1 base)).secondReport
  ∧ (crossSiteComparison (q1 base) (q2 base)).secondReport
        = (crossSiteComparison (q2 base) (q1 base)).firstReport
  ∧ (crossSiteComparison (q1 base) (q2 base)).firstMinusSecond
        = (crossSiteComparison (q2 base) (q1 base)).secondMinusFirst
  ∧ (crossSiteComparison (q1 base) (q2 base)).secondMinusFirst
        = (crossSiteComparison (q2 base) (q1 base)).firstMinusSecond :=
  ⟨rfl, rfl, rfl, rfl⟩

/-- C5: `add_pfn` is idempotent in (path, site): a second call with the
same pair is a no-op, and when the pair was not present before, the PFN
list after the two calls holds exactly one entry for it. -/
theorem add_pfn_idempotent (f : WFile) (path site : String) :
    add_pfn (add_pfn f path site) path site = add_pfn f path site
  ∧ (PFN.mk path site ∉ f.pfns →
      ((add_pfn (add_pfn f path site) path site).pfns.countP
          (fun q => q = PFN.mk path site)) = 1) := by
  constructor
  · by_cases h : PFN.mk path site ∈ f.pfns
    · simp [add_pfn, h]
    · simp [add_pfn, h]
  · intro h
    have h1 : add_pfn f path site = { f with pfns := f.pfns ++ [PFN.mk path site] } := by
      simp [add_pfn, h]
    have h2 : add_pfn (add_pfn f path site) path site = add_pfn f path site := by
      rw [h1]; simp [add_pfn]
    rw [h2, h1]
    simp [List.countP_append]
    intro a ha heq
    exact h (heq ▸ ha)

/-- C5 witness: on a File with no PFNs, registering the same
(path, site) twice is a no-op the second time and leaves exactly one
entry. -/
theorem add_pfn_idempotent_witness :
    add_pfn (add_pfn demoFile "/x/f.xml" "local") "/x/f.xml" "local"
      = add_pfn demoFile "/x/f.xml" "local"
  ∧ ((add_pfn (add_pfn demoFile "/x/f.xml" "local") "/x/f.xml" "local").pfns.countP
      (fun q => q = PFN.mk "/x/f.xml" "local")) = 1 :=
  ⟨(add_pfn_idempotent demoFile "/x/f.xml" "local").1,
   (add_pfn_idempotent demoFile "/x/f.xml" "local").2 (by decide)⟩

/-- C9: `get_ipn_sky_files` and `make_gating_node` treat an omitted
(`None`) tags argument exactly like the empty tag list: with every
other argument (and every external collaborator) fixed, the two calls
return the same result. -/
theorem none_tags_same_as_empty {File Job Node F : Type}
    (resolve : String → FileAttrs → File)
    (wfIfos : String) (analysisTime : Segment) (fileUrl : String)
    (wf : GatingWorkflow) (datafindFiles : List DFFile)
    (outdir : Option String)
    (exeClass : Config → String → String → Option String → List String → Job)
    (createNode : Job → List DFFile → List String → Node × F) :
    get_ipn_sky_files resolve wfIfos analysisTime fileUrl none
      = get_ipn_sky_files resolve wfIfos analysisTime fileUrl (some [])
  ∧ make_gating_node wf datafindFiles outdir none exeClass createNode
      = make_gating_node wf datafindFiles outdir (some []) exeClass createNode :=
  ⟨rfl, rfl⟩

/-- The append-accumulator loop of `make_gating_node`, described as a
map: folding the per-ifo step over the instrument list appends, per
instrument in order, the node and the output of `g ifo`. -/
theorem foldl_append_pair {α N F : Type} (g : α → N × F) :
    ∀ (l : List α) (acc : List N × List F),
      l.foldl (fun acc x => (acc.1 ++ [(g x).1], acc.2 ++ [(g x).2])) acc
        = (acc.1 ++ l.map (fun x => (g x).1), acc.2 ++ l.map (fun x => (g x).2)) := by
  intro l
  induction l with
  | nil => intro acc; simp
  | cons x rest ih =>
      intro acc
      simp only [List.foldl_cons, List.map_cons, ih]
      simp

/-- C10: `make_gating_node` produces exactly one node and one output
file per instrument of `workflow.ifos`, in that iteration order (so the
node list and the output list have the length of `workflow.ifos`), and
the input files handed to an instrument's node are exactly the entries
of `datafind_files` whose `ifo` equals that instrument, in their
original order. -/
theorem make_gating_node_per_ifo {Job Node F : Type} (wf : GatingWorkflow)
    (datafindFiles : List DFFile) (outdir : Option String)
    (tags : Option (List String))
    (exeClass : Config → String → String → Option String → List String → Job)
    (createNode : Job → List DFFile → List String → Node × F) :
    (make_gating_node wf datafindFiles outdir tags exeClass createNode).1
      = wf.ifos.map (fun ifo =>
          (createNode (exeClass wf.cp "condition_strain" ifo outdir (tagsOrEmpty tags))
            (datafindFiles.filter fun df => df.ifo = ifo) (tagsOrEmpty tags)).1)
  ∧ (make_gating_node wf datafindFiles outdir tags exeClass createNode).2
      = wf.ifos.map (fun ifo =>
          (createNode (exeClass wf.cp "condition_strain" ifo outdir (tagsOrEmpty tags))
            (datafindFiles.filter fun df => df.ifo = ifo) (tagsOrEmpty tags)).2)
  ∧ (make_gating_node wf datafindFiles outdir tags exeClass createNode).1.length
      = wf.ifos.length
  ∧ (make_gating_node wf datafindFiles outdir tags exeClass createNode).2.length
      = wf.ifos.length := by
  have key := foldl_append_pair
    (fun ifo => createNode (exeClass wf.cp "condition_strain" ifo outdir (tagsOrEmpty tags))
      (datafindFiles.filter fun df => df.ifo = ifo) (tagsOrEmpty tags))
    wf.ifos ([], [])
  have hmg : make_gating_node wf datafindFiles outdir tags exeClass createNode
      = (wf.ifos.map (fun ifo =>
          (createNode (exeClass wf.cp "condition_strain" ifo outdir (tagsOrEmpty tags))
            (datafindFiles.filter fun df => df.ifo = ifo) (tagsOrEmpty tags)).1),
         wf.ifos.map (fun ifo =>
          (createNode (exeClass wf.cp "condition_strain" ifo outdir (tagsOrEmpty tags))
            (datafindFiles.filter fun df => df.ifo = ifo) (tagsOrEmpty tags)).2)) := by
    rw [make_gating_node]
    simpa using key
  rw [hmg]
  simp

/-- C8: `get_coh_PTF_files` with `LAL_SRC` unset raises the
`ValueError` before any filesystem copy or `File` construction; with
`LAL_SRC` set and both `bank_veto` and `summary_files` false it copies
nothing, creates nothing, and returns an empty `FileList` (provided the
two `workflow` boundary options it reads first are present and
integral). -/
theorem get_coh_PTF_files_guard (cp : Config) (ifos runDir : String)
    (bankVeto summaryFiles : Bool) :
    get_coh_PTF_files none cp ifos runDir bankVeto summaryFiles
      = ⟨[], [], .error lalSrcMsg⟩
  ∧ ∀ lalDir s e si ei,
      cp "workflow" "start-time" = some s →
      cp "workflow" "end-time" = some e →
      pyInt? s = some si → pyInt? e = some ei →
      get_coh_PTF_files (some lalDir) cp ifos runDir false false
        = ⟨[], [], .ok []⟩ := by
  constructor
  · rfl
  · intro lalDir s e si ei hs he hsi hei
    simp [get_coh_PTF_files, hs, he, hsi, hei]

/-- C8 witness at `demoConfig` (whose boundary options are `"0"` and
`"100"`): the unset-environment call errors with nothing copied or
created, and the no-flags call returns the empty list. -/
theorem get_coh_PTF_files_guard_witness :
    get_coh_PTF_files none demoConfig "H1" "/run" true true
      = ⟨[], [], .error lalSrcMsg⟩
  ∧ get_coh_PTF_files (some "/lal") demoConfig "H1" "/run" false false
      = ⟨[], [], .ok []⟩ :=
  ⟨(get_coh_PTF_files_guard demoConfig "H1" "/run" true true).1,
   (get_coh_PTF_files_guard demoConfig "H1" "/run" false false).2
     "/lal" "0" "100" 0 100 (by decide) (by decide) (by decide) (by decide)⟩

/-! ### Row-filling lemmas for `make_exttrig_file` -/

/-- An attribute present before a `setattr` of another attribute is
still present afterwards. -/
theorem hasAttr_setAttr (row : Row) (e eNew : String) (v : RowVal)
    (h : hasAttr row e = true) : hasAttr (setAttr row eNew v) e = true := by
  simp only [hasAttr, setAttr] at h ⊢
  rw [List.any_append, h, Bool.true_or]

/-- A fresh `setattr` makes its attribute present. -/
theorem hasAttr_setAttr_new (row : Row) (e : String) (v : RowVal) :
    hasAttr (setAttr row e v) e = true := by
  simp [hasAttr, setAttr]

/-- A `setattr` of a different attribute does not make an absent
attribute present. -/
theorem hasAttr_setAttr_of_ne (row : Row) (e eNew : String) (v : RowVal)
    (hne : e ≠ eNew) (h : hasAttr row e = false) :
    hasAttr (setAttr row eNew v) e = false := by
  simp only [hasAttr, setAttr] at h ⊢
  rw [List.any_append, h, Bool.false_or]
  simp [Ne.symm hne]

/-- A `setattr` of another attribute leaves the reads of a present
attribute unchanged. -/
theorem getAttr_setAttr_of_hasAttr (row : Row) (e eNew : String) (v : RowVal)
    (h : hasAttr row e = true) :
    getAttr (setAttr row eNew v) e = getAttr row e := by
  simp only [getAttr, setAttr]
  rw [List.find?_append]
  cases hf : row.find? (fun p => p.1 = e) with
  | some pr => simp
  | none =>
      exfalso
      simp only [hasAttr, List.any_eq_true] at h
      obtain ⟨x, hx, hpx⟩ := h
      have := List.find?_eq_none.mp hf x hx
      exact this hpx

/-- A fresh `setattr` is read back. -/
theorem getAttr_setAttr_new (row : Row) (e : String) (v : RowVal)
    (h : hasAttr row e = false) : getAttr (setAttr row e v) e = some v := by
  simp only [getAttr, setAttr]
  rw [List.find?_append]
  have hf : row.find? (fun p => p.1 = e) = none := by
    rw [List.find?_eq_none]
    intro x hx
    simp only [hasAttr, List.any_eq_false] at h
    exact h x hx
  simp [hf]

/-- The filling loop never removes an attribute. -/
theorem fillRow_mono (cols : List (String × String)) :
    ∀ (row row' : Row) (e : String), hasAttr row e = true →
      fillRow cols row = .ok row' → hasAttr row' e = true := by
  induction cols with
  | nil =>
      intro row row' e he h
      simp only [fillRow] at h
      injection h with h
      exact h ▸ he
  | cons p rest ih =>
      obtain ⟨entry, kind⟩ := p
      intro row row' e he h
      simp only [fillRow] at h
      split at h
      · exact ih row row' e he h
      · split at h
        · rename_i v hd
          exact ih _ row' e (hasAttr_setAttr row e entry v he) h
        · exact absurd h (by simp)

/-- The filling loop leaves the reads of already-present attributes
unchanged. -/
theorem fillRow_preserves (cols : List (String × String)) :
    ∀ (row row' : Row) (e : String), hasAttr row e = true →
      fillRow cols row = .ok row' → getAttr row' e = getAttr row e := by
  induction cols with
  | nil =>
      intro row row' e he h
      simp only [fillRow] at h
      injection h with h
      exact h ▸ rfl
  | cons p rest ih =>
      obtain ⟨entry, kind⟩ := p
      intro row row' e he h
      simp only [fillRow] at h
      split at h
      · exact ih row row' e he h
      · split at h
        · rename_i v hd
          have h1 := ih _ row' e (hasAttr_setAttr row e entry v he) h
          rw [h1, getAttr_setAttr_of_hasAttr row e entry v he]
        · exact absurd h (by simp)

/-- On success the filling loop leaves no listed column unset. -/
theorem fillRow_has (cols : List (String × String)) :
    ∀ (row row' : Row), fillRow cols row = .ok row' →
      ∀ p ∈ cols, hasAttr row' p.1 = true := by
  induction cols with
  | nil => intro row row' _ p hp; cases hp
  | cons q rest ih =>
      obtain ⟨entry, kind⟩ := q
      intro row row' h p hp
      simp only [fillRow] at h
      split at h
      · rename_i hA
        cases hp with
        | head => exact fillRow_mono rest row row' entry hA h
        | tail _ hp => exact ih row row' h p hp
      · split at h
        · rename_i v hd
          cases hp with
          | head =>
              exact fillRow_mono rest _ row' entry (hasAttr_setAttr_new row entry v) h
          | tail _ hp => exact ih _ row' h p hp
        · exact absurd h (by simp)

/-- On success every listed column that was not already set reads back
as its declared kind default. -/
theorem fillRow_defaults (cols : List (String × String)) :
    ∀ (row row' : Row), (cols.map Prod.fst).Nodup →
      fillRow cols row = .ok row' →
      ∀ p ∈ cols, hasAttr row p.1 = false →
        getAttr row' p.1 = defaultFor p.1 p.2 := by
  induction cols with
  | nil => intro row row' _ _ p hp; cases hp
  | cons q rest ih =>
      obtain ⟨entry, kind⟩ := q
      intro row row' hnd h p hp hfalse
      have hnd' : (rest.map Prod.fst).Nodup := (List.nodup_cons.mp (by simpa using hnd)).2
      have hnotin : entry ∉ rest.map Prod.fst := (List.nodup_cons.mp (by simpa using hnd)).1
      simp only [fillRow] at h
      split at h
      · rename_i hA
        cases hp with
        | head => rw [hfalse] at hA; cases hA
        | tail _ hp => exact ih row row' hnd' h p hp hfalse
      · rename_i hA
        split at h
        · rename_i v hd
          cases hp with
          | head =>
              have h2 := fillRow_preserves rest _ row' entry (hasAttr_setAttr_new row entry v) h
              rw [h2, getAttr_setAttr_new row entry v hfalse, hd]
          | tail _ hp =>
              have hne : p.1 ≠ entry := by
                intro hc
                exact hnotin (hc ▸ List.mem_map_of_mem Prod.fst hp)
              exact ih _ row' hnd' h p hp
                (hasAttr_setAttr_of_ne row p.1 entry v hne hfalse)
        · exact absurd h (by simp)

/-- On failure the filling loop stopped at a listed, still-unset column
with no recognised default, and the `ValueError` message names it. -/
theorem fillRow_error (cols : List (String × String)) :
    ∀ (row : Row) (msg : String), fillRow cols row = .error msg →
      ∃ p ∈ cols, defaultFor p.1 p.2 = none ∧ hasAttr row p.1 = false
        ∧ msg = "Column " ++ p.1 ++ " not recognized" := by
  induction cols with
  | nil => intro row msg h; exact absurd h (by simp [fillRow])
  | cons q rest ih =>
      obtain ⟨entry, kind⟩ := q
      intro row msg h
      simp only [fillRow] at h
      split at h
      · rename_i hA
        obtain ⟨p, hp, hd, hf, hm⟩ := ih row msg h
        exact ⟨p, List.mem_cons_of_mem _ hp, hd, hf, hm⟩
      · rename_i hA
        rw [Bool.not_eq_true] at hA
        split at h
        · rename_i v hd
          obtain ⟨p, hp, hdp, hf, hm⟩ := ih _ msg h
          have hf' : hasAttr row p.1 = false := by
            cases hrow : hasAttr row p.1 with
            | false => rfl
            | true => rw [hasAttr_setAttr row p.1 entry v hrow] at hf; cases hf
          exact ⟨p, List.mem_cons_of_mem _ hp, hdp, hf', hm⟩
        · rename_i hd
          injection h with h
          exact ⟨(entry, kind), List.mem_cons_self _ _, hd, hA, h.symm⟩

/-- C6: on every `validcolumns` list (with its dict-unique column
names), `make_exttrig_file`'s row assembly leaves no column unset: the
four GRB attributes are set from the configuration, every remaining
column reads back as the default declared for its kind (`0.` for
`real_4`/`real_8`, `0` for `int_4s`/`int_8s`, `''` for `lstring`, `0`
for `process_id`/`event_id`), and a column of unrecognised kind makes
it raise the `ValueError` naming that column instead of skipping it. -/
theorem make_exttrig_row_complete (cols : List (String × String))
    (ra dec : String) (triggerTime : Int) (triggerName : String)
    (hnodup : (cols.map Prod.fst).Nodup) :
    (∀ row, make_exttrig_row cols ra dec triggerTime triggerName = .ok row →
        (∀ p ∈ cols, hasAttr row p.1 = true)
      ∧ getAttr row "event_ra" = some (.real ra)
      ∧ getAttr row "event_dec" = some (.real dec)
      ∧ getAttr row "start_time" = some (.int triggerTime)
      ∧ getAttr row "event_number_grb" = some (.str triggerName)
      ∧ ∀ p ∈ cols,
          hasAttr (initExtTrigRow ra dec triggerTime triggerName) p.1 = false →
            getAttr row p.1 = defaultFor p.1 p.2)
  ∧ (∀ msg, make_exttrig_row cols ra dec triggerTime triggerName = .error msg →
        ∃ p ∈ cols, defaultFor p.1 p.2 = none
          ∧ hasAttr (initExtTrigRow ra dec triggerTime triggerName) p.1 = false
          ∧ msg = "Column " ++ p.1 ++ " not recognized") := by
  constructor
  · intro row h
    refine ⟨fillRow_has cols _ row h, ?_, ?_, ?_, ?_,
      fillRow_defaults cols _ row hnodup h⟩
    · rw [fillRow_preserves cols _ row "event_ra" (by simp [hasAttr, initExtTrigRow]) h]
      simp [getAttr, initExtTrigRow]
    · rw [fillRow_preserves cols _ row "event_dec" (by simp [hasAttr, initExtTrigRow]) h]
      simp [getAttr, initExtTrigRow]
    · rw [fillRow_preserves cols _ row "start_time" (by simp [hasAttr, initExtTrigRow]) h]
      simp [getAttr, initExtTrigRow]
    · rw [fillRow_preserves cols _ row "event_number_grb"
        (by simp [hasAttr, initExtTrigRow]) h]
      simp [getAttr, initExtTrigRow]
  · intro msg h
    exact fillRow_error cols _ msg h

/-- C6 witness on `demoCols`: the assembly succeeds, the unrecognised
`ilwd:char` kind of `process_id` falls back to its by-name default, the
`lstring` column gets the empty string, and the configured right
ascension is read back. -/
theorem make_exttrig_row_complete_witness :
    hasAttr demoExtRow "process_id" = true
  ∧ getAttr demoExtRow "event_ra" = some (.real "266.4")
  ∧ getAttr demoExtRow "event_type" = defaultFor "event_type" "lstring" :=
  ⟨((make_exttrig_row_complete demoCols "266.4" "-29.0" 100 "GRB1"
        (by decide)).1 demoExtRow (by rfl)).1 ("process_id", "ilwd:char") (by decide),
   (((make_exttrig_row_complete demoCols "266.4" "-29.0" 100 "GRB1"
        (by decide)).1 demoExtRow (by rfl)).2).1,
   (((make_exttrig_row_complete demoCols "266.4" "-29.0" 100 "GRB1"
        (by decide)).1 demoExtRow (by rfl)).2).2.2.2.2
     ("event_type", "lstring") (by decide) (by decide)⟩

/-! ### Segment Algebra lemmas -/

/-- Intersection of segment lists is commutative: the sweep drops the
earlier-ending head (or both, on a tie), which is symmetric in the two
arguments. -/
theorem SegmentList.inter_comm : ∀ (A B : SegmentList),
    SegmentList.inter A B = SegmentList.inter B A
  | [], [] => rfl
  | [], _ :: _ => by simp [SegmentList.inter]
  | _ :: _, [] => by simp [SegmentList.inter]
  | (a1, a2) :: as, (b1, b2) :: bs => by
      simp only [SegmentList.inter]
      rw [max_comm b1 a1, min_comm b2 a2]
      rcases lt_trichotomy a2 b2 with h | h | h
      · rw [if_pos h, if_neg (asymm h), if_pos h,
          SegmentList.inter_comm as ((b1, b2) :: bs)]
      · subst h
        rw [if_neg (lt_irrefl a2), if_neg (lt_irrefl a2), if_neg (lt_irrefl a2),
          if_neg (lt_irrefl a2), SegmentList.inter_comm as bs]
      · rw [if_neg (asymm h), if_pos h, if_pos h,
          SegmentList.inter_comm ((a1, a2) :: as) bs]
  termination_by A B => A.length + B.length

/-- In a well-formed segment list the head is a proper interval, the
tail is well-formed, and the head ends no later than any tail segment
starts. -/
theorem SegmentList.wf_cons : ∀ (a1 a2 : Int) (as : SegmentList),
    SegmentList.wf ((a1, a2) :: as) = true →
      a1 < a2 ∧ SegmentList.wf as = true ∧ ∀ s ∈ as, a2 ≤ s.1
  | a1, a2, [], h =>
      ⟨by simpa [SegmentList.wf] using h, rfl, by intro s hs; cases hs⟩
  | a1, a2, (z, w) :: rest, h => by
      simp only [SegmentList.wf, Bool.and_eq_true, decide_eq_true_eq] at h
      obtain ⟨⟨h1, h2⟩, h3⟩ := h
      obtain ⟨hzw, _, hrest⟩ := SegmentList.wf_cons z w rest h3
      refine ⟨h1, h3, ?_⟩
      intro s hs
      cases hs with
      | head => exact le_of_lt h2
      | tail _ hs =>
          exact le_trans (le_of_lt h2) (le_trans (le_of_lt hzw) (hrest s hs))

/-- A subtrahend segment ending before every minuend segment starts
contributes nothing to the difference. -/
theorem SegmentList.diff_cons_ge (as bs : SegmentList) (b1 b2 : Int)
    (hb : ∀ s ∈ as, b2 ≤ s.1) :
    SegmentList.diff as ((b1, b2) :: bs) = SegmentList.diff as bs := by
  cases as with
  | nil => simp [SegmentList.diff]
  | cons a as' =>
      obtain ⟨a1, a2⟩ := a
      have h1 : b2 ≤ a1 := hb (a1, a2) (List.mem_cons_self _ _)
      simp only [SegmentList.diff]
      rw [if_pos h1]

/-- The difference of a well-formed segment list with itself is
empty. -/
theorem SegmentList.diff_self : ∀ (A : SegmentList),
    SegmentList.wf A = true → SegmentList.diff A A = []
  | [], _ => by simp [SegmentList.diff]
  | (a1, a2) :: as, h => by
      obtain ⟨h12, hwf, hge⟩ := SegmentList.wf_cons a1 a2 as h
      simp only [SegmentList.diff]
      rw [if_neg (by omega : ¬ (a2 ≤ a1)), if_neg (by omega : ¬ (a2 ≤ a1)),
        if_neg (lt_irrefl a1), if_neg (lt_irrefl a2)]
      simp only [List.nil_append]
      rw [SegmentList.diff_cons_ge as as a1 a2 hge]
      exact SegmentList.diff_self as hwf

/-- C7: `intersect` on SegmentLists is commutative and the difference
of a SegmentList (well-formed, as the library maintains) with itself is
empty; both are functions of their arguments alone, returning new lists
and leaving the argument lists unchanged. -/
theorem segment_algebra_inter_comm_diff_self (A B : SegmentList) :
    SegmentList.inter A B = SegmentList.inter B A
  ∧ (SegmentList.wf A = true → SegmentList.diff A A = []) :=
  ⟨SegmentList.inter_comm A B, fun h => SegmentList.diff_self A h⟩

/-- C7 witness on concrete lists: `[[0,5),[7,9)] ∩ [[1,3)]` both ways,
and `[[0,5),[7,9)] - [[0,5),[7,9)] = []`. -/
theorem segment_algebra_inter_comm_diff_self_witness :
    SegmentList.inter [((0 : Int), 5), (7, 9)] [(1, 3)]
      = SegmentList.inter [((1 : Int), 3)] [(0, 5), (7, 9)]
  ∧ SegmentList.diff [((0 : Int), 5), (7, 9)] [(0, 5), (7, 9)] = [] :=
  ⟨(segment_algebra_inter_comm_diff_self [((0 : Int), 5), (7, 9)] [(1, 3)]).1,
   (segment_algebra_inter_comm_diff_self [((0 : Int), 5), (7, 9)]
      [(0, 5), (7, 9)]).2 (by decide)⟩

end Pycbc
